import Mathlib

/-!
Verification of the SD/MMC request execution engine
(`components/sdio/sdmmc_req.c`): the hardware command encoder, the
response/error decoder, the DMA descriptor ring manager and the
event-dispatch state machine, shallowly embedded in Lean.

Machine integers: all status words and register fields are modelled as
`Nat` bit masks; the C code only reads and clears individual bits, never
relies on 32-bit overflow, so no wrap-around modelling is needed.
Pointers are modelled as `Nat` byte offsets; a NULL-able pointer becomes
an `Option`.  C `assert` aborts the program, modelled by `Option`-valued
functions (`none` = assertion failure).
-/

/- ### Hardware register bit masks

Modelled from the spec: the individual interrupt/status bits come from
`soc/sdmmc_reg.h`, which is outside the provided sources; the spec only
requires them to be distinct single-bit condition flags.  The values below
are the bit positions of the real controller. -/

def SDMMC_INTMASK_CD : Nat := 1
def SDMMC_INTMASK_RESP_ERR : Nat := 2
def SDMMC_INTMASK_CMD_DONE : Nat := 4
def SDMMC_INTMASK_DATA_OVER : Nat := 8
def SDMMC_INTMASK_RCRC : Nat := 64
def SDMMC_INTMASK_DCRC : Nat := 128
def SDMMC_INTMASK_RTO : Nat := 256
def SDMMC_INTMASK_DTO : Nat := 512
def SDMMC_INTMASK_HTO : Nat := 1024
def SDMMC_INTMASK_SBE : Nat := 8192
def SDMMC_INTMASK_EBE : Nat := 32768

def SDMMC_IDMAC_INTMASK_TI : Nat := 1
def SDMMC_IDMAC_INTMASK_RI : Nat := 2
def SDMMC_IDMAC_INTMASK_NI : Nat := 256

/-- `SDMMC_DATA_ERR_MASK` as defined in `sdmmc_req.c`. -/
def SDMMC_DATA_ERR_MASK : Nat :=
  SDMMC_INTMASK_DTO ||| SDMMC_INTMASK_DCRC |||
  SDMMC_INTMASK_HTO ||| SDMMC_INTMASK_SBE |||
  SDMMC_INTMASK_EBE

/-- `SDMMC_DMA_DONE_MASK` as defined in `sdmmc_req.c`. -/
def SDMMC_DMA_DONE_MASK : Nat :=
  SDMMC_IDMAC_INTMASK_RI ||| SDMMC_IDMAC_INTMASK_TI |||
  SDMMC_IDMAC_INTMASK_NI

/-- `SDMMC_CMD_ERR_MASK` as defined in `sdmmc_req.c`. -/
def SDMMC_CMD_ERR_MASK : Nat :=
  SDMMC_INTMASK_RTO ||| SDMMC_INTMASK_RCRC ||| SDMMC_INTMASK_RESP_ERR

/- ### Command-set opcodes and command flags

Modelled from the spec: opcode numbers (`sdmmc_defs.h`) and `SCF_*`
command flags (`sdmmc_types.h`) are outside the provided sources; values
are the standard SD/MMC ones, and only their distinctness matters. -/

def MMC_ALL_SEND_CID : Nat := 2
def SD_APP_SET_BUS_WIDTH : Nat := 6
def MMC_SELECT_CARD : Nat := 7
def MMC_STOP_TRANSMISSION : Nat := 12

def SCF_CMD_READ : Nat := 0x0040
def SCF_RSP_136 : Nat := 0x0200
def SCF_RSP_CRC : Nat := 0x0400
def SCF_RSP_PRESENT : Nat := 0x1000

/- ### Error codes (`esp_err.h`) -/

def ESP_OK : Int := 0
def ESP_FAIL : Int := -1
def ESP_ERR_TIMEOUT : Int := 0x107
def ESP_ERR_INVALID_RESPONSE : Int := 0x108
def ESP_ERR_INVALID_CRC : Int := 0x109

/-- Maximum bytes one DMA descriptor can carry.
Modelled from the spec: the controller's maximum per-descriptor transfer
size (`SDMMC_DMA_MAX_BUF_LEN`, from the peripheral header outside the
provided sources); 4096 is the hardware value. -/
def SDMMC_DMA_MAX_BUF_LEN : Nat := 4096

/-- DescRing capacity, `SDMMC_DMA_DESC_CNT` in `sdmmc_req.c`. -/
def SDMMC_DMA_DESC_CNT : Nat := 4

/- ### Data model -/

/-- The four hardware response registers `SDMMC.resp[0..3]`, and also the
four-word response buffer of a command descriptor. -/
structure Resp4 where
  w0 : Nat
  w1 : Nat
  w2 : Nat
  w3 : Nat
deriving Repr, DecidableEq

/-- Word `i` of a four-word response. -/
def Resp4.get (r : Resp4) (i : Fin 4) : Nat :=
  match i with
  | ⟨0, _⟩ => r.w0
  | ⟨1, _⟩ => r.w1
  | ⟨2, _⟩ => r.w2
  | ⟨3, _⟩ => r.w3

/-- `sdmmc_command_t`: the caller-owned command descriptor.  The data
buffer pointer is an `Option` (`none` = NULL); `error` is an `esp_err_t`. -/
structure sdmmc_command_t where
  opcode : Nat
  arg : Nat
  flags : Nat
  data : Option Nat
  datalen : Nat
  blklen : Nat
  response : Resp4
  error : Int
deriving Repr, DecidableEq

/-- One DMA descriptor (`sdmmc_desc_t`), with the fields `sdmmc_req.c`
touches.  `next_desc_ptr` points at a ring slot (`none` = NULL). -/
structure sdmmc_desc_t where
  owned_by_idmac : Bool
  first_descriptor : Bool
  last_descriptor : Bool
  second_address_chained : Bool
  buffer1_size : Nat
  buffer1_ptr : Nat
  next_desc_ptr : Option (Fin 4)
deriving Repr, DecidableEq

/-- The all-zero descriptor produced by `memset(s_dma_desc, 0, ...)`. -/
def sdmmc_desc_zero : sdmmc_desc_t :=
  { owned_by_idmac := false, first_descriptor := false,
    last_descriptor := false, second_address_chained := false,
    buffer1_size := 0, buffer1_ptr := 0, next_desc_ptr := none }

/-- The descriptor ring `s_dma_desc[SDMMC_DMA_DESC_CNT]`. -/
abbrev DescRing := Fin 4 → sdmmc_desc_t

/-- Store into one ring slot. -/
def ringSet (r : DescRing) (i : Fin 4) (d : sdmmc_desc_t) : DescRing :=
  fun j => if j = i then d else r j

/-- The ring slot `j` positions after cursor `c`, i.e. `(c + j) % 4`. -/
def ringIdx (c : Fin 4) (j : Nat) : Fin 4 :=
  ⟨(c.val + j) % 4, Nat.mod_lt _ (by omega)⟩

/-- `sdmmc_transfer_state_t`: the transfer cursor.  The C field
`next_desc` is a `size_t` that is only ever advanced modulo
`SDMMC_DMA_DESC_CNT` from an in-range initial value, so it is modelled as
`Fin 4` (whose `+ 1` is exactly `(x + 1) % 4`). -/
structure sdmmc_transfer_state_t where
  ptr : Nat
  size_remaining : Nat
  next_desc : Fin 4
  desc_remaining : Nat
deriving Repr, DecidableEq

/-- `sdmmc_event_t`: a pair of raw status masks from the interrupt
handler. -/
structure sdmmc_event_t where
  sdmmc_status : Nat
  dma_status : Nat
deriving Repr, DecidableEq

/-- `sdmmc_req_state_t`: the protocol state. -/
inductive sdmmc_req_state_t where
  | SDMMC_IDLE
  | SDMMC_SENDING_CMD
  | SDMMC_SENDING_DATA
  | SDMMC_BUSY
deriving Repr, DecidableEq

/-- `sdmmc_hw_cmd_t`: the command register word built by `make_hw_cmd`. -/
structure sdmmc_hw_cmd_t where
  cmd_index : Nat
  stop_abort_cmd : Bool
  wait_complete : Bool
  send_auto_stop : Bool
  data_expected : Bool
  response_expect : Bool
  response_long : Bool
  check_response_crc : Bool
  rw : Bool
  use_hold_reg : Bool
  card_num : Nat
deriving Repr, DecidableEq

/-- The zero-initialized `sdmmc_hw_cmd_t res = { 0 }`. -/
def sdmmc_hw_cmd_zero : sdmmc_hw_cmd_t :=
  { cmd_index := 0, stop_abort_cmd := false, wait_complete := false,
    send_auto_stop := false, data_expected := false,
    response_expect := false, response_long := false,
    check_response_crc := false, rw := false, use_hold_reg := false,
    card_num := 0 }

/-- Calls into the external hardware layer, recorded as a trace so that
"no hardware side effect" claims are statable. -/
inductive HwAction where
  | idma_prepare_transfer (blklen : Nat) (datalen : Nat)
  | start_command (hw_cmd : sdmmc_hw_cmd_t) (arg : Nat)
  | idma_stop
  | fifo_reset
deriving Repr, DecidableEq

/- ### Hardware command encoder (`make_hw_cmd`) -/

/-- `make_hw_cmd`: build the hardware command word from a command
descriptor.  `none` models the `assert(cmd->datalen % cmd->blklen == 0)`
failure (the C program aborts). -/
def make_hw_cmd (cmd : sdmmc_command_t) : Option sdmmc_hw_cmd_t :=
  let res := { sdmmc_hw_cmd_zero with cmd_index := cmd.opcode }
  let res := if cmd.opcode = MMC_STOP_TRANSMISSION then
      { res with stop_abort_cmd := true }
    else
      { res with wait_complete := true }
  let res := if cmd.opcode = SD_APP_SET_BUS_WIDTH then
      { res with send_auto_stop := true, data_expected := true }
    else res
  let res := if cmd.flags &&& SCF_RSP_PRESENT ≠ 0 then
      let res := { res with response_expect := true }
      if cmd.flags &&& SCF_RSP_136 ≠ 0 then
        { res with response_long := true }
      else res
    else res
  let res := if cmd.flags &&& SCF_RSP_CRC ≠ 0 then
      { res with check_response_crc := true }
    else res
  let res := { res with use_hold_reg := true }
  match cmd.data with
  | none => some { res with card_num := 1 }
  | some _ =>
    let res := { res with data_expected := true }
    let res := if cmd.flags &&& SCF_CMD_READ = 0 then
        { res with rw := true }
      else res
    if cmd.datalen % cmd.blklen = 0 then
      let res := if cmd.datalen / cmd.blklen > 1 then
          { res with send_auto_stop := true }
        else res
      some { res with card_num := 1 }
    else none

/- ### Response/error decoder -/

/-- `sdmmc_process_command_response(status, cmd)`.  Besides the updated
descriptor it returns the hardware calls made (`idma_stop` on error with
data) and — as ghost instrumentation — how many times it wrote the
descriptor's `error` field. -/
def sdmmc_process_command_response (status : Nat) (hwresp : Resp4)
    (cmd : sdmmc_command_t) : sdmmc_command_t × List HwAction × Nat :=
  let cmd :=
    if cmd.flags &&& SCF_RSP_PRESENT ≠ 0 then
      if cmd.flags &&& SCF_RSP_136 ≠ 0 then
        { cmd with response :=
            { w0 := hwresp.w3, w1 := hwresp.w2, w2 := hwresp.w1, w3 := hwresp.w0 } }
      else
        { cmd with response := { w0 := hwresp.w0, w1 := 0, w2 := 0, w3 := 0 } }
    else cmd
  let cw :=
    if status &&& SDMMC_INTMASK_RTO ≠ 0 ∧
        cmd.opcode ≠ MMC_ALL_SEND_CID ∧
        cmd.opcode ≠ MMC_SELECT_CARD ∧
        cmd.opcode ≠ MMC_STOP_TRANSMISSION then
      ({ cmd with error := ESP_ERR_TIMEOUT }, 1)
    else if cmd.flags &&& SCF_RSP_CRC ≠ 0 ∧ status &&& SDMMC_INTMASK_RCRC ≠ 0 then
      ({ cmd with error := ESP_ERR_INVALID_CRC }, 1)
    else if status &&& SDMMC_INTMASK_RESP_ERR ≠ 0 then
      ({ cmd with error := ESP_ERR_INVALID_RESPONSE }, 1)
    else (cmd, 0)
  let actions := if cw.1.error ≠ 0 ∧ cw.1.data.isSome then [HwAction.idma_stop] else []
  (cw.1, actions, cw.2)

/-- `process_data_status(status, cmd)`: classify data-phase error bits;
resets the FIFO on any data error. -/
def process_data_status (status : Nat) (cmd : sdmmc_command_t) :
    sdmmc_command_t × List HwAction × Nat :=
  if status &&& SDMMC_DATA_ERR_MASK ≠ 0 then
    let cw :=
      if status &&& SDMMC_INTMASK_DTO ≠ 0 then
        ({ cmd with error := ESP_ERR_TIMEOUT }, 1)
      else if status &&& SDMMC_INTMASK_DCRC ≠ 0 then
        ({ cmd with error := ESP_ERR_INVALID_CRC }, 1)
      else if status &&& SDMMC_INTMASK_EBE ≠ 0 ∧ cmd.flags &&& SCF_CMD_READ = 0 then
        ({ cmd with error := ESP_ERR_TIMEOUT }, 1)
      else ({ cmd with error := ESP_FAIL }, 1)
    (cw.1, [HwAction.fifo_reset], cw.2)
  else (cmd, [], 0)

/-- `mask_check_and_clear(&state, mask)`: returns whether any bit of
`mask` is set and the state with those bits cleared
(`x & ~mask` computed as `x ^^^ (x &&& mask)`). -/
def mask_check_and_clear (st : Nat) (mask : Nat) : Bool × Nat :=
  (decide (st &&& mask ≠ 0), st ^^^ (st &&& mask))

/- ### Descriptor ring manager (`sdmmc_fill_dma_descriptors`) -/

/-- `sdmmc_fill_dma_descriptors(num_desc)`, with the globals
(`s_dma_desc`, `s_cur_transfer`) passed explicitly.  `none` models the
`assert(!desc->owned_by_idmac)` failure. -/
def sdmmc_fill_dma_descriptors (num_desc : Nat) (ring : DescRing)
    (ts : sdmmc_transfer_state_t) : Option (DescRing × sdmmc_transfer_state_t) :=
  match num_desc with
  | 0 => some (ring, ts)
  | n + 1 =>
    if ts.size_remaining = 0 then
      some (ring, ts)
    else
      let next := ts.next_desc
      let desc := ring next
      if desc.owned_by_idmac then none
      else
        let size_to_fill :=
          if ts.size_remaining < SDMMC_DMA_MAX_BUF_LEN then
            ts.size_remaining
          else SDMMC_DMA_MAX_BUF_LEN
        let last : Bool := decide (size_to_fill = ts.size_remaining)
        let desc1 := { desc with
          last_descriptor := last,
          second_address_chained := true,
          owned_by_idmac := true,
          buffer1_ptr := ts.ptr,
          next_desc_ptr := if last then none else some (next + 1),
          buffer1_size := size_to_fill }
        let ring1 := ringSet ring next desc1
        let ts1 := { ts with
          size_remaining := ts.size_remaining - size_to_fill,
          ptr := ts.ptr + size_to_fill,
          next_desc := ts.next_desc + 1 }
        sdmmc_fill_dma_descriptors n ring1 ts1

/-- `ceil(L / SDMMC_DMA_MAX_BUF_LEN)`: descriptors needed to exhaust `L`
bytes — the expression `(datalen + SDMMC_DMA_MAX_BUF_LEN - 1) /
SDMMC_DMA_MAX_BUF_LEN` from `sdmmc_req_run`. -/
def descNeeded (L : Nat) : Nat :=
  (L + SDMMC_DMA_MAX_BUF_LEN - 1) / SDMMC_DMA_MAX_BUF_LEN

/- ### Event dispatcher (`sdmmc_process_events`) -/

/-- The mutable state of one `sdmmc_req_run` invocation: the protocol
state, the event copy being consumed, the command descriptor, the
transfer cursor and the ring.  `actions` (hardware calls), `errWrites`
(writes to `cmd.error`) and `trace` (every value assigned to `state`,
including the initial one) are ghost instrumentation and influence
nothing. -/
structure DispatchState where
  state : sdmmc_req_state_t
  evt : sdmmc_event_t
  cmd : sdmmc_command_t
  ts : sdmmc_transfer_state_t
  ring : DescRing
  actions : List HwAction
  errWrites : Nat
  trace : List sdmmc_req_state_t

/-- The `case SDMMC_SENDING_CMD` arm of `sdmmc_process_events`. -/
def passSendingCmd (orig : sdmmc_event_t) (hwresp : Resp4)
    (s : DispatchState) : DispatchState :=
  let mc := mask_check_and_clear s.evt.sdmmc_status SDMMC_CMD_ERR_MASK
  let s := { s with evt.sdmmc_status := mc.2 }
  if mc.1 then
    let pr := sdmmc_process_command_response orig.sdmmc_status hwresp s.cmd
    { s with cmd := pr.1, actions := s.actions ++ pr.2.1,
             errWrites := s.errWrites + pr.2.2 }
  else
    let md := mask_check_and_clear s.evt.sdmmc_status SDMMC_INTMASK_CMD_DONE
    let s := { s with evt.sdmmc_status := md.2 }
    if !md.1 then s
    else
      let pr := sdmmc_process_command_response orig.sdmmc_status hwresp s.cmd
      let s := { s with cmd := pr.1, actions := s.actions ++ pr.2.1,
                        errWrites := s.errWrites + pr.2.2 }
      if pr.1.error ≠ ESP_OK ∨ pr.1.data = none then
        { s with state := .SDMMC_IDLE, trace := s.trace ++ [.SDMMC_IDLE] }
      else
        { s with state := .SDMMC_SENDING_DATA, trace := s.trace ++ [.SDMMC_SENDING_DATA] }

/-- The `if (s_cur_transfer.size_remaining) sdmmc_fill_dma_descriptors(1)`
refill step of the SENDING_DATA arm. -/
def refillIfNeeded (ring : DescRing) (ts1 : sdmmc_transfer_state_t) :
    Option (DescRing × sdmmc_transfer_state_t) :=
  if ts1.size_remaining ≠ 0 then sdmmc_fill_dma_descriptors 1 ring ts1
  else some (ring, ts1)

/-- The `case SDMMC_SENDING_DATA` arm of `sdmmc_process_events`;
`none` models the ownership assertion failing inside the refill. -/
def passSendingData (orig : sdmmc_event_t) (s : DispatchState) :
    Option DispatchState :=
  let mc := mask_check_and_clear s.evt.sdmmc_status SDMMC_DATA_ERR_MASK
  let s := { s with evt.sdmmc_status := mc.2 }
  let s := if mc.1 then
      let pr := process_data_status orig.sdmmc_status s.cmd
      { s with cmd := pr.1,
               actions := s.actions ++ pr.2.1 ++ [HwAction.idma_stop],
               errWrites := s.errWrites + pr.2.2 }
    else s
  let md := mask_check_and_clear s.evt.dma_status SDMMC_DMA_DONE_MASK
  let s := { s with evt.dma_status := md.2 }
  if md.1 then
    let ts1 := { s.ts with desc_remaining := s.ts.desc_remaining - 1 }
    match refillIfNeeded s.ring ts1 with
    | none => none
    | some (ring1, ts2) =>
      let s := { s with ring := ring1, ts := ts2 }
      if ts2.desc_remaining = 0 then
        some { s with state := .SDMMC_BUSY, trace := s.trace ++ [.SDMMC_BUSY] }
      else some s
  else some s

/-- The `case SDMMC_BUSY` arm of `sdmmc_process_events`. -/
def passBusy (orig : sdmmc_event_t) (s : DispatchState) : DispatchState :=
  let mo := mask_check_and_clear s.evt.sdmmc_status SDMMC_INTMASK_DATA_OVER
  let s := { s with evt.sdmmc_status := mo.2 }
  if !mo.1 then s
  else
    let pr := process_data_status orig.sdmmc_status s.cmd
    { s with cmd := pr.1, actions := s.actions ++ pr.2.1,
             errWrites := s.errWrites + pr.2.2,
             state := .SDMMC_IDLE, trace := s.trace ++ [.SDMMC_IDLE] }

/-- One pass of the `do { switch (state) ... } while` body of
`sdmmc_process_events`. -/
def sdmmc_process_pass (orig : sdmmc_event_t) (hwresp : Resp4)
    (s : DispatchState) : Option DispatchState :=
  match s.state with
  | .SDMMC_IDLE => some s
  | .SDMMC_SENDING_CMD => some (passSendingCmd orig hwresp s)
  | .SDMMC_SENDING_DATA => passSendingData orig s
  | .SDMMC_BUSY => passBusy orig s |> some

/-- Rank of a protocol state in the forward order
`SENDING_CMD < SENDING_DATA < BUSY < IDLE`; a dispatch pass never
decreases it (proved below). -/
def stateRank : sdmmc_req_state_t → Nat
  | .SDMMC_SENDING_CMD => 0
  | .SDMMC_SENDING_DATA => 1
  | .SDMMC_BUSY => 2
  | .SDMMC_IDLE => 3

/-- The `do ... while (state != prev_state)` loop of
`sdmmc_process_events`, with an explicit pass budget.  The C loop is
unbounded; `stateRank` strictly increases whenever a pass changes the
state, so the loop stabilizes within at most 4 passes and running it with
budget 4 computes the exact result of the C loop (proved below). -/
def sdmmc_dispatch_fuel (orig : sdmmc_event_t) (hwresp : Resp4) :
    Nat → DispatchState → Option DispatchState
  | 0, s => some s
  | n + 1, s =>
    match sdmmc_process_pass orig hwresp s with
    | none => none
    | some s1 =>
      if s1.state = s.state then some s1
      else sdmmc_dispatch_fuel orig hwresp n s1

/-- `sdmmc_process_events(evt, cmd, pstate)`: copy the event, then run
the re-evaluation loop. -/
def sdmmc_process_events (evt : sdmmc_event_t) (hwresp : Resp4)
    (s : DispatchState) : Option DispatchState :=
  sdmmc_dispatch_fuel evt hwresp 4 { s with evt := evt }

/- ### Request execution engine (`sdmmc_req_run`) -/

/-- Outcome of `sdmmc_req_run`.  `assertFail` carries the hardware calls
made before the abort; `outOfEvents` is the model's rendering of the C
code blocking forever on an empty event queue (no return value). -/
inductive RunResult where
  | ok (ret : Int) (final : DispatchState)
  | assertFail (actions : List HwAction)
  | outOfEvents (stuck : DispatchState)

/-- The `while (state != SDMMC_IDLE) { sdmmc_handle_event(...) }` loop. -/
def sdmmc_run_loop (hwresp : Resp4) (s : DispatchState) :
    List sdmmc_event_t → RunResult
  | [] =>
    if s.state = .SDMMC_IDLE then RunResult.ok ESP_OK s
    else RunResult.outOfEvents s
  | e :: rest =>
    if s.state = .SDMMC_IDLE then RunResult.ok ESP_OK s
    else
      match sdmmc_process_events e hwresp s with
      | none => RunResult.assertFail s.actions
      | some s1 => sdmmc_run_loop hwresp s1 rest

/-- `sdmmc_req_run(cmdinfo)`.  `hwresp` is the content of the hardware
response registers, `ring0`/`ts0` the incoming global ring and transfer
cursor, `events` the queue filled by the interrupt handler (the
idle-state drain of stale events touches no engine state and is elided).
Mirrors the C statement order: `make_hw_cmd` (which asserts
`datalen % blklen == 0` when data is attached) runs before the data-path
asserts, the ring reset/fill, `sdmmc_idma_prepare_transfer` and
`sdmmc_start_command`; then `error` is initialized to `ESP_OK` and the
event loop runs until IDLE. -/
def sdmmc_req_run (cmdinfo : sdmmc_command_t) (hwresp : Resp4)
    (ring0 : DescRing) (ts0 : sdmmc_transfer_state_t)
    (events : List sdmmc_event_t) : RunResult :=
  match make_hw_cmd cmdinfo with
  | none => RunResult.assertFail []
  | some hw_cmd =>
    let prep : Option (DescRing × sdmmc_transfer_state_t × List HwAction) :=
      match cmdinfo.data with
      | none => some (ring0, ts0, [])
      | some p =>
        if cmdinfo.datalen ≥ 4 ∧ cmdinfo.blklen % 4 = 0 then
          let ring1 : DescRing := fun i =>
            if i.val = 0 then { sdmmc_desc_zero with first_descriptor := true }
            else sdmmc_desc_zero
          let ts1 : sdmmc_transfer_state_t :=
            { ptr := p, size_remaining := cmdinfo.datalen, next_desc := 0,
              desc_remaining := descNeeded cmdinfo.datalen }
          match sdmmc_fill_dma_descriptors SDMMC_DMA_DESC_CNT ring1 ts1 with
          | none => none
          | some (ring2, ts2) =>
            some (ring2, ts2,
              [HwAction.idma_prepare_transfer cmdinfo.blklen cmdinfo.datalen])
        else none
    match prep with
    | none => RunResult.assertFail []
    | some (ring2, ts2, prepActs) =>
      let s0 : DispatchState :=
        { state := .SDMMC_SENDING_CMD,
          evt := { sdmmc_status := 0, dma_status := 0 },
          cmd := { cmdinfo with error := ESP_OK },
          ts := ts2, ring := ring2,
          actions := prepActs ++ [HwAction.start_command hw_cmd cmdinfo.arg],
          errWrites := 1,
          trace := [.SDMMC_SENDING_CMD] }
      sdmmc_run_loop hwresp s0 events

/-- The return value of `sdmmc_req_run`, when it returns. -/
def RunResult.retOf : RunResult → Option Int
  | .ok r _ => some r
  | _ => none

/-- The number of writes to `cmd.error` during a completed run. -/
def RunResult.errWritesOf : RunResult → Option Nat
  | .ok _ f => some f.errWrites
  | _ => none

/-- Descriptor error field after a completed run. -/
def RunResult.errorOf : RunResult → Option Int
  | .ok _ f => some f.cmd.error
  | _ => none

/-- Every value the protocol state took during the run (empty for a
contract abort before the state machine started). -/
def RunResult.traceOf : RunResult → List sdmmc_req_state_t
  | .ok _ f => f.trace
  | .outOfEvents f => f.trace
  | .assertFail _ => []

/-- The hardware calls made during the run. -/
def RunResult.actionsOf : RunResult → List HwAction
  | .ok _ f => f.actions
  | .outOfEvents f => f.actions
  | .assertFail a => a

/- ### Concrete inputs used by counterexamples and witnesses -/

/-- Hardware response registers with four distinct words. -/
def exResp : Resp4 := { w0 := 11, w1 := 22, w2 := 33, w3 := 44 }

/-- All-zero response registers. -/
def exRespZero : Resp4 := { w0 := 0, w1 := 0, w2 := 0, w3 := 0 }

/-- A ring of all-zero (CPU-owned) descriptors. -/
def exRing : DescRing := fun _ => sdmmc_desc_zero

/-- An idle transfer cursor. -/
def exTs : sdmmc_transfer_state_t :=
  { ptr := 0, size_remaining := 0, next_desc := 0, desc_remaining := 0 }

/-- An ordinary response-bearing command without data
(opcode 17 = single-block read, here used with no buffer attached). -/
def exCmdNoData : sdmmc_command_t :=
  { opcode := 17, arg := 0, flags := SCF_RSP_PRESENT ||| SCF_RSP_CRC,
    data := none, datalen := 0, blklen := 0, response := exRespZero,
    error := ESP_OK }

/-- Dispatcher state at the start of the event loop for `exCmdNoData`. -/
def exDispatch : DispatchState :=
  { state := .SDMMC_SENDING_CMD,
    evt := { sdmmc_status := 0, dma_status := 0 },
    cmd := exCmdNoData, ts := exTs, ring := exRing,
    actions := [], errWrites := 1, trace := [.SDMMC_SENDING_CMD] }

/-- An event carrying both the response-timeout and the command-done bits. -/
def exEvtErrDone : sdmmc_event_t :=
  { sdmmc_status := SDMMC_INTMASK_RTO ||| SDMMC_INTMASK_CMD_DONE, dma_status := 0 }

/-- An event carrying only the command-done bit. -/
def exEvtCmdDone : sdmmc_event_t :=
  { sdmmc_status := SDMMC_INTMASK_CMD_DONE, dma_status := 0 }

/-- `exDispatch` with the command-done event already copied in (input to a
single dispatch pass). -/
def exDispatchDone : DispatchState :=
  { exDispatch with evt := exEvtCmdDone }

/-- Card-selection command that requests response-CRC checking (as the
R1b `MMC_SELECT_CARD` command does). -/
def exCmdSelect : sdmmc_command_t :=
  { opcode := MMC_SELECT_CARD, arg := 0,
    flags := SCF_RSP_PRESENT ||| SCF_RSP_CRC,
    data := none, datalen := 0, blklen := 0, response := exRespZero,
    error := ESP_OK }

/-- Card-selection command that does not request CRC checking. -/
def exCmdSelectNoCrc : sdmmc_command_t :=
  { opcode := MMC_SELECT_CARD, arg := 0, flags := SCF_RSP_PRESENT,
    data := none, datalen := 0, blklen := 0, response := exRespZero,
    error := ESP_OK }

/-- A single-block read command with a 512-byte data buffer. -/
def exCmdRead : sdmmc_command_t :=
  { opcode := 17, arg := 0,
    flags := SCF_RSP_PRESENT ||| SCF_RSP_CRC ||| SCF_CMD_READ,
    data := some 0, datalen := 512, blklen := 512, response := exRespZero,
    error := ESP_OK }

/-- An event with a data timeout, data-transfer-over and all DMA
completion bits at once. -/
def exEvtDataErrOver : sdmmc_event_t :=
  { sdmmc_status := SDMMC_INTMASK_DTO ||| SDMMC_INTMASK_DATA_OVER,
    dma_status := SDMMC_DMA_DONE_MASK }

/-- A long-response (136-bit) command. -/
def exCmdLong : sdmmc_command_t :=
  { opcode := MMC_ALL_SEND_CID, arg := 0,
    flags := SCF_RSP_PRESENT ||| SCF_RSP_136,
    data := none, datalen := 0, blklen := 0, response := exRespZero,
    error := ESP_OK }

/-- A transfer cursor mid-ring: 5000 bytes left, cursor at slot 2. -/
def exTsFill : sdmmc_transfer_state_t :=
  { ptr := 0, size_remaining := 5000, next_desc := 2, desc_remaining := 2 }

/-- A data command whose length is not a multiple of its block length. -/
def exCmdBadLen : sdmmc_command_t :=
  { opcode := 24, arg := 0, flags := SCF_RSP_PRESENT ||| SCF_RSP_CRC,
    data := some 0, datalen := 100, blklen := 512, response := exRespZero,
    error := ESP_OK }

/- ### Specification predicates -/

/-- What one call of the ring-fill operation does, per §4.1: with
`L = ts.size_remaining` bytes left and budget `n`, exactly
`k = min n (descNeeded L)` slots are filled starting at the cursor; slot
`j` gets `min (L - j*M) M` bytes at buffer offset `ts.ptr + j*M`, is
marked DMA-owned and chained, is the chain terminator exactly when it
exhausts `L`, and otherwise points at the next ring slot; the cursor
advances by `k` mod 4, the remaining length drops to `L - k*M`, and all
other slots are untouched. -/
def FillSpec (n : Nat) (ring : DescRing) (ts : sdmmc_transfer_state_t)
    (ring1 : DescRing) (ts1 : sdmmc_transfer_state_t) : Prop :=
  ts1.size_remaining =
    ts.size_remaining - min n (descNeeded ts.size_remaining) * SDMMC_DMA_MAX_BUF_LEN ∧
  ts1.ptr = ts.ptr +
    min ts.size_remaining (min n (descNeeded ts.size_remaining) * SDMMC_DMA_MAX_BUF_LEN) ∧
  ts1.next_desc.val =
    (ts.next_desc.val + min n (descNeeded ts.size_remaining)) % 4 ∧
  ts1.desc_remaining = ts.desc_remaining ∧
  (∀ j, j < min n (descNeeded ts.size_remaining) →
    (ring1 (ringIdx ts.next_desc j)).owned_by_idmac = true ∧
    (ring1 (ringIdx ts.next_desc j)).second_address_chained = true ∧
    (ring1 (ringIdx ts.next_desc j)).buffer1_size =
      min (ts.size_remaining - j * SDMMC_DMA_MAX_BUF_LEN) SDMMC_DMA_MAX_BUF_LEN ∧
    (ring1 (ringIdx ts.next_desc j)).buffer1_ptr = ts.ptr + j * SDMMC_DMA_MAX_BUF_LEN ∧
    (ring1 (ringIdx ts.next_desc j)).last_descriptor =
      decide (ts.size_remaining ≤ (j + 1) * SDMMC_DMA_MAX_BUF_LEN) ∧
    (ring1 (ringIdx ts.next_desc j)).next_desc_ptr =
      (if ts.size_remaining ≤ (j + 1) * SDMMC_DMA_MAX_BUF_LEN then none
       else some (ringIdx ts.next_desc (j + 1)))) ∧
  (∀ i : Fin 4,
    (∀ j, j < min n (descNeeded ts.size_remaining) → i ≠ ringIdx ts.next_desc j) →
    ring1 i = ring i)

/-- Invariant of a run whose command carries no data: the protocol state
only ever visits `SENDING_CMD` and `IDLE`, and the recorded state history
is exactly the direct path. -/
def NoDataInv (s : DispatchState) : Prop :=
  s.cmd.data = none ∧
  ((s.state = .SDMMC_SENDING_CMD ∧ s.trace = [.SDMMC_SENDING_CMD]) ∨
   (s.state = .SDMMC_IDLE ∧ s.trace = [.SDMMC_SENDING_CMD, .SDMMC_IDLE]))

/- ### Helper lemmas -/

theorem ringIdx_zero (c : Fin 4) : ringIdx c 0 = c := by
  apply Fin.ext
  simp [ringIdx, Nat.mod_eq_of_lt c.isLt]

theorem val_add_one (c : Fin 4) : (c + 1 : Fin 4).val = (c.val + 1) % 4 := by
  simp [Fin.val_add]

theorem ringIdx_succ (c : Fin 4) (j : Nat) :
    ringIdx (c + 1) j = ringIdx c (j + 1) := by
  apply Fin.ext
  simp only [ringIdx, val_add_one]
  omega

theorem ringIdx_one (c : Fin 4) : ringIdx c 1 = c + 1 := by
  apply Fin.ext
  simp [ringIdx, val_add_one]

theorem ringIdx_ne (c : Fin 4) (j : Nat) (h1 : 0 < j) (h2 : j < 4) :
    ringIdx c j ≠ c := by
  intro h
  have hv := congrArg Fin.val h
  simp only [ringIdx] at hv
  have := c.isLt
  omega

theorem ringSet_self (r : DescRing) (i : Fin 4) (d : sdmmc_desc_t) :
    ringSet r i d i = d := by
  simp [ringSet]

theorem ringSet_other (r : DescRing) (i : Fin 4) (d : sdmmc_desc_t)
    (j : Fin 4) (h : j ≠ i) : ringSet r i d j = r j := by
  simp [ringSet, h]

theorem sdmmc_process_command_response_data_eq (status : Nat) (hwresp : Resp4)
    (cmd : sdmmc_command_t) :
    (sdmmc_process_command_response status hwresp cmd).1.data = cmd.data := by
  simp only [sdmmc_process_command_response]
  split_ifs <;> rfl

theorem process_data_status_data_eq (status : Nat) (cmd : sdmmc_command_t) :
    (process_data_status status cmd).1.data = cmd.data := by
  simp only [process_data_status]
  split_ifs <;> rfl

/- ### Claim C4: timeout has priority over CRC error -/

/-- Claim C4 (confirmed): for every command whose opcode is not in the
timeout-exception set, decoding a status with both the response-timeout
and response-CRC bits set classifies the command error as timeout, not
CRC error. -/
theorem timeout_priority_over_crc (status : Nat) (hwresp : Resp4)
    (cmd : sdmmc_command_t)
    (hcid : cmd.opcode ≠ MMC_ALL_SEND_CID)
    (hsel : cmd.opcode ≠ MMC_SELECT_CARD)
    (hstop : cmd.opcode ≠ MMC_STOP_TRANSMISSION)
    (hrto : status &&& SDMMC_INTMASK_RTO ≠ 0)
    (hrcrc : status &&& SDMMC_INTMASK_RCRC ≠ 0) :
    (sdmmc_process_command_response status hwresp cmd).1.error = ESP_ERR_TIMEOUT := by
  simp only [sdmmc_process_command_response]
  split_ifs <;> simp_all

/-- Witness for C4 at a concrete input. -/
theorem timeout_priority_over_crc_witness :
    (sdmmc_process_command_response
        (SDMMC_INTMASK_RTO ||| SDMMC_INTMASK_RCRC) exRespZero
        exCmdNoData).1.error = ESP_ERR_TIMEOUT :=
  timeout_priority_over_crc _ exRespZero exCmdNoData
    (by decide) (by decide) (by decide) (by decide) (by decide)

/- ### Claim C5: response word copy -/

/-- Claim C5 (confirmed): for every command with the response-present
flag and any register contents, a 136-bit response is the reverse-order
copy of the four registers, and a short response keeps word 0 and zeroes
words 1–3. -/
theorem response_copy_long_reversed_short_zeroed (status : Nat)
    (hwresp : Resp4) (cmd : sdmmc_command_t)
    (hp : cmd.flags &&& SCF_RSP_PRESENT ≠ 0) :
    (cmd.flags &&& SCF_RSP_136 ≠ 0 →
      ∀ i : Fin 4,
        (sdmmc_process_command_response status hwresp cmd).1.response.get i =
          hwresp.get ⟨3 - i.val, by omega⟩) ∧
    (cmd.flags &&& SCF_RSP_136 = 0 →
      (sdmmc_process_command_response status hwresp cmd).1.response.get 0 = hwresp.get 0 ∧
      (sdmmc_process_command_response status hwresp cmd).1.response.get 1 = 0 ∧
      (sdmmc_process_command_response status hwresp cmd).1.response.get 2 = 0 ∧
      (sdmmc_process_command_response status hwresp cmd).1.response.get 3 = 0) := by
  constructor
  · intro h136 i
    simp only [sdmmc_process_command_response, if_pos hp, if_pos h136]
    split_ifs <;> (fin_cases i <;> rfl)
  · intro h136
    simp only [sdmmc_process_command_response, if_pos hp, if_neg (by omega : ¬ cmd.flags &&& SCF_RSP_136 ≠ 0)]
    split_ifs <;> exact ⟨rfl, rfl, rfl, rfl⟩

/-- Witness for C5 at a concrete long-response command and concrete
register words. -/
theorem response_copy_long_reversed_short_zeroed_witness :
    (exCmdLong.flags &&& SCF_RSP_136 ≠ 0 →
      ∀ i : Fin 4,
        (sdmmc_process_command_response 4 exResp exCmdLong).1.response.get i =
          exResp.get ⟨3 - i.val, by omega⟩) ∧
    (exCmdLong.flags &&& SCF_RSP_136 = 0 →
      (sdmmc_process_command_response 4 exResp exCmdLong).1.response.get 0 = exResp.get 0 ∧
      (sdmmc_process_command_response 4 exResp exCmdLong).1.response.get 1 = 0 ∧
      (sdmmc_process_command_response 4 exResp exCmdLong).1.response.get 2 = 0 ∧
      (sdmmc_process_command_response 4 exResp exCmdLong).1.response.get 3 = 0) :=
  response_copy_long_reversed_short_zeroed 4 exResp exCmdLong (by decide)

/- ### Claim C2: timeout-exception opcodes (corrected) -/

/-- Claim C2 counterexample: for opcode card-selection with the
response-CRC-check flag set (as a real `MMC_SELECT_CARD` descriptor
requests), a status with both the response-timeout and response-CRC bits
set records a CRC error on the descriptor — not "no command error". -/
theorem select_card_dual_bit_records_crc_error_cex :
    (sdmmc_process_command_response
        (SDMMC_INTMASK_RTO ||| SDMMC_INTMASK_RCRC) exRespZero
        exCmdSelect).1.error = ESP_ERR_INVALID_CRC ∧
    ESP_ERR_INVALID_CRC ≠ exCmdSelect.error := by
  exact ⟨by decide, by decide⟩

/-- Claim C2 as amended (proved): for descriptors with an opcode in the
timeout-exception set, the dual-bit status records no command error only
when the descriptor does not request response-CRC checking (and the
generic response-error bit is clear); the timeout exemption does not
suppress the CRC branch. -/
theorem timeout_exception_no_error_without_crc_flag (status : Nat)
    (hwresp : Resp4) (cmd : sdmmc_command_t)
    (hop : cmd.opcode = MMC_ALL_SEND_CID ∨ cmd.opcode = MMC_SELECT_CARD ∨
      cmd.opcode = MMC_STOP_TRANSMISSION)
    (hrto : status &&& SDMMC_INTMASK_RTO ≠ 0)
    (hrcrc : status &&& SDMMC_INTMASK_RCRC ≠ 0)
    (hresp : status &&& SDMMC_INTMASK_RESP_ERR = 0)
    (hnocrc : cmd.flags &&& SCF_RSP_CRC = 0) :
    (sdmmc_process_command_response status hwresp cmd).1.error = cmd.error ∧
    (sdmmc_process_command_response status hwresp cmd).2.2 = 0 := by
  simp only [sdmmc_process_command_response]
  split_ifs <;> simp_all

/-- Witness for the amended C2 at a concrete CRC-less card-selection
descriptor. -/
theorem timeout_exception_no_error_without_crc_flag_witness :
    (sdmmc_process_command_response
        (SDMMC_INTMASK_RTO ||| SDMMC_INTMASK_RCRC) exRespZero
        exCmdSelectNoCrc).1.error = exCmdSelectNoCrc.error ∧
    (sdmmc_process_command_response
        (SDMMC_INTMASK_RTO ||| SDMMC_INTMASK_RCRC) exRespZero
        exCmdSelectNoCrc).2.2 = 0 :=
  timeout_exception_no_error_without_crc_flag _ exRespZero exCmdSelectNoCrc
    (Or.inr (Or.inl (by decide))) (by decide) (by decide) (by decide) (by decide)

/- ### Claim C1: command-error handling in SENDING_CMD (corrected) -/

/-- Claim C1 counterexample: dispatching an event that carries the
response-timeout bit (even together with command-done) in state
SENDING_CMD decodes the error but leaves the state machine in
SENDING_CMD — it does not terminate to IDLE in that dispatch. -/
theorem sendingCmd_error_stays_in_sending_cmd_cex :
    (sdmmc_process_events exEvtErrDone exRespZero exDispatch).map
        (fun s => s.state) = some .SDMMC_SENDING_CMD ∧
    (sdmmc_process_events exEvtErrDone exRespZero exDispatch).map
        (fun s => s.cmd.error) = some ESP_ERR_TIMEOUT := by
  exact ⟨by decide, by decide⟩

/-- Claim C1 as amended (proved): for every event processed in state
SENDING_CMD in which any command-error bit is set, the dispatcher decodes
the response/error but the state machine stays in SENDING_CMD for that
dispatch (no state transition is recorded); termination to IDLE happens
only in a later dispatch that observes the command-done bit. -/
theorem sendingCmd_error_decodes_and_stays (evt : sdmmc_event_t)
    (hwresp : Resp4) (s : DispatchState)
    (hstate : s.state = .SDMMC_SENDING_CMD)
    (hbits : evt.sdmmc_status &&& SDMMC_CMD_ERR_MASK ≠ 0) :
    ∃ s1, sdmmc_process_events evt hwresp s = some s1 ∧
      s1.state = .SDMMC_SENDING_CMD ∧
      s1.cmd = (sdmmc_process_command_response evt.sdmmc_status hwresp s.cmd).1 ∧
      s1.trace = s.trace := by
  obtain ⟨st, ev, cm, tss, rg, ac, ew, tr⟩ := s
  simp only at hstate
  subst hstate
  simp only [sdmmc_process_events, sdmmc_dispatch_fuel, sdmmc_process_pass,
    passSendingCmd, mask_check_and_clear, decide_eq_true_eq]
  rw [if_pos hbits]
  exact ⟨_, rfl, rfl, rfl, rfl⟩

/-- Witness for the amended C1: a concrete response-timeout event
dispatched in SENDING_CMD. -/
theorem sendingCmd_error_decodes_and_stays_witness :
    ∃ s1, sdmmc_process_events { sdmmc_status := SDMMC_INTMASK_RTO, dma_status := 0 }
        exRespZero exDispatch = some s1 ∧
      s1.state = .SDMMC_SENDING_CMD ∧
      s1.cmd = (sdmmc_process_command_response SDMMC_INTMASK_RTO exRespZero
        exDispatch.cmd).1 ∧
      s1.trace = exDispatch.trace :=
  sendingCmd_error_decodes_and_stays _ exRespZero exDispatch (by rfl) (by decide)

/- ### Claim C3: writes to the result error code (corrected) -/

theorem passSendingCmd_errWrites_le (orig : sdmmc_event_t) (hwresp : Resp4)
    (s : DispatchState) :
    s.errWrites ≤ (passSendingCmd orig hwresp s).errWrites := by
  simp only [passSendingCmd]
  split_ifs <;> simp

theorem passSendingData_errWrites_le (orig : sdmmc_event_t)
    (s s1 : DispatchState) (h : passSendingData orig s = some s1) :
    s.errWrites ≤ s1.errWrites := by
  simp only [passSendingData] at h
  split_ifs at h <;>
    first
      | (cases h; simp)
      | (split at h <;>
          first
            | cases h
            | (split_ifs at h <;> cases h <;> simp))

theorem passBusy_errWrites_le (orig : sdmmc_event_t) (s : DispatchState) :
    s.errWrites ≤ (passBusy orig s).errWrites := by
  simp only [passBusy]
  split_ifs <;> simp

theorem pass_errWrites_le (orig : sdmmc_event_t) (hwresp : Resp4)
    (s s1 : DispatchState) (h : sdmmc_process_pass orig hwresp s = some s1) :
    s.errWrites ≤ s1.errWrites := by
  cases hst : s.state <;> simp only [sdmmc_process_pass, hst] at h
  case SDMMC_IDLE => cases h; exact Nat.le_refl _
  case SDMMC_SENDING_CMD => cases h; exact passSendingCmd_errWrites_le _ _ _
  case SDMMC_SENDING_DATA => exact passSendingData_errWrites_le _ _ _ h
  case SDMMC_BUSY => cases h; exact passBusy_errWrites_le _ _

theorem fuel_errWrites_le (orig : sdmmc_event_t) (hwresp : Resp4) :
    ∀ (n : Nat) (s s1 : DispatchState),
      sdmmc_dispatch_fuel orig hwresp n s = some s1 →
      s.errWrites ≤ s1.errWrites := by
  intro n
  induction n with
  | zero => intro s s1 h; cases h; exact Nat.le_refl _
  | succ n ih =>
    intro s s1 h
    simp only [sdmmc_dispatch_fuel] at h
    split at h
    · cases h
    · rename_i s2 hp
      have h2 := pass_errWrites_le orig hwresp s s2 hp
      split_ifs at h with he
      · cases h; exact h2
      · exact Nat.le_trans h2 (ih s2 s1 h)

theorem run_loop_errWrites_le (hwresp : Resp4) :
    ∀ (events : List sdmmc_event_t) (s : DispatchState) (ret : Int)
      (f : DispatchState),
      sdmmc_run_loop hwresp s events = RunResult.ok ret f →
      s.errWrites ≤ f.errWrites := by
  intro events
  induction events with
  | nil =>
    intro s ret f h
    simp only [sdmmc_run_loop] at h
    split_ifs at h <;> cases h
    exact Nat.le_refl _
  | cons e rest ih =>
    intro s ret f h
    simp only [sdmmc_run_loop] at h
    split_ifs at h
    · cases h; exact Nat.le_refl _
    · cases hp : sdmmc_process_events e hwresp s with
      | none => rw [hp] at h; cases h
      | some s1 =>
        rw [hp] at h
        have h1 : s.errWrites ≤ s1.errWrites :=
          fuel_errWrites_le e hwresp 4 { s with evt := e } s1 hp
        exact Nat.le_trans h1 (ih s1 ret f h)

/-- Claim C3 counterexample: a concrete single-block read whose data
phase times out makes `sdmmc_req_run` write the descriptor's error field
three times during one run (the `ESP_OK` initialization, the data-error
classification in SENDING_DATA, and the same classification again at
DATA_OVER in BUSY) — not exactly once. -/
theorem error_field_written_three_times_cex :
    (sdmmc_req_run exCmdRead exRespZero exRing exTs
        [exEvtCmdDone, exEvtDataErrOver]).errWritesOf = some 3 ∧
    (sdmmc_req_run exCmdRead exRespZero exRing exTs
        [exEvtCmdDone, exEvtDataErrOver]).errorOf = some ESP_ERR_TIMEOUT := by
  exact ⟨by decide, by decide⟩

theorem run_loop_errWrites_getD (hwresp : Resp4)
    (events : List sdmmc_event_t) (s : DispatchState)
    (h1 : 1 ≤ s.errWrites) :
    1 ≤ (sdmmc_run_loop hwresp s events).errWritesOf.getD 1 := by
  cases hr : sdmmc_run_loop hwresp s events with
  | ok ret f =>
    have := run_loop_errWrites_le hwresp events s ret f hr
    simp only [RunResult.errWritesOf, Option.getD_some]
    omega
  | assertFail a => simp [RunResult.errWritesOf]
  | outOfEvents f => simp [RunResult.errWritesOf]

/-- Claim C3 as amended (proved): during one execution of `run` the
error code is written at least once — it is initialized to no-error
before the event loop — and error classifications may write it again,
possibly several times (the counterexample shows the same data error
recorded twice); so every completed run has at least one write, rather
than exactly one write on completion. -/
theorem error_field_written_at_least_once (cmd : sdmmc_command_t)
    (hwresp : Resp4) (ring0 : DescRing) (ts0 : sdmmc_transfer_state_t)
    (events : List sdmmc_event_t) :
    1 ≤ ((sdmmc_req_run cmd hwresp ring0 ts0 events).errWritesOf.getD 1) := by
  simp only [sdmmc_req_run]
  split
  · simp [RunResult.errWritesOf]
  · split
    · simp [RunResult.errWritesOf]
    · exact run_loop_errWrites_getD _ _ _ (Nat.le_refl 1)

/- ### Claim C7: contract check precedes hardware side effects -/

/-- Claim C7 (confirmed): for every data-bearing command whose length is
not a multiple of the block length, `sdmmc_req_run` hits the
`make_hw_cmd` contract assertion and aborts with an empty hardware-call
trace — before the DMA-prepare call and the command-start call; and
under the precondition `datalen % blklen = 0` the assertion never fires. -/
theorem run_rejects_bad_datalen_before_hw (cmd : sdmmc_command_t)
    (hwresp : Resp4) (ring0 : DescRing) (ts0 : sdmmc_transfer_state_t)
    (events : List sdmmc_event_t) (p : Nat)
    (hdata : cmd.data = some p)
    (hmod : cmd.datalen % cmd.blklen ≠ 0) :
    sdmmc_req_run cmd hwresp ring0 ts0 events = RunResult.assertFail [] ∧
    (∀ c : sdmmc_command_t, c.datalen % c.blklen = 0 →
      (make_hw_cmd c).isSome = true) := by
  constructor
  · have hmk : make_hw_cmd cmd = none := by
      simp only [make_hw_cmd, hdata]
      rw [if_neg hmod]
    simp only [sdmmc_req_run, hmk]
  · intro c hc
    cases hd : c.data with
    | none => simp [make_hw_cmd, hd]
    | some q =>
      simp only [make_hw_cmd, hd]
      rw [if_pos hc]
      simp

/-- Witness for C7: a concrete 100-byte transfer with 512-byte blocks. -/
theorem run_rejects_bad_datalen_before_hw_witness :
    sdmmc_req_run exCmdBadLen exRespZero exRing exTs [] = RunResult.assertFail [] ∧
    (∀ c : sdmmc_command_t, c.datalen % c.blklen = 0 →
      (make_hw_cmd c).isSome = true) :=
  run_rejects_bad_datalen_before_hw exCmdBadLen exRespZero exRing exTs [] 0
    (by decide) (by decide)

/- ### Claim C9: the engine's own return value is always success -/

theorem run_loop_ret_ok (hwresp : Resp4) :
    ∀ (events : List sdmmc_event_t) (s : DispatchState),
      (sdmmc_run_loop hwresp s events).retOf = none ∨
      (sdmmc_run_loop hwresp s events).retOf = some ESP_OK := by
  intro events
  induction events with
  | nil =>
    intro s
    simp only [sdmmc_run_loop]
    split_ifs <;> simp [RunResult.retOf]
  | cons e rest ih =>
    intro s
    simp only [sdmmc_run_loop]
    split_ifs
    · simp [RunResult.retOf]
    · split
      · simp [RunResult.retOf]
      · exact ih _

/-- Claim C9 (confirmed): whenever `sdmmc_req_run` returns, its own
return value is `ESP_OK`; command- and data-level errors are reported
only through the descriptor's error field (`retOf` is `none` exactly when
the model aborts on a contract assertion or the C code would block
forever, i.e. when there is no return value at all). -/
theorem run_returns_ok (cmd : sdmmc_command_t) (hwresp : Resp4)
    (ring0 : DescRing) (ts0 : sdmmc_transfer_state_t)
    (events : List sdmmc_event_t) :
    (sdmmc_req_run cmd hwresp ring0 ts0 events).retOf = none ∨
    (sdmmc_req_run cmd hwresp ring0 ts0 events).retOf = some ESP_OK := by
  simp only [sdmmc_req_run]
  split
  · simp [RunResult.retOf]
  · split
    · simp [RunResult.retOf]
    · exact run_loop_ret_ok hwresp events _

/- ### Claim C10: the re-evaluation loop moves forward and stabilizes -/

theorem stateRank_le_three (st : sdmmc_req_state_t) : stateRank st ≤ 3 := by
  cases st <;> simp [stateRank]

theorem stateRank_inj (a b : sdmmc_req_state_t)
    (h : stateRank a = stateRank b) : a = b := by
  cases a <;> cases b <;> simp_all [stateRank]

theorem passSendingData_state (orig : sdmmc_event_t) (s s1 : DispatchState)
    (h : passSendingData orig s = some s1) :
    s1.state = s.state ∨ s1.state = .SDMMC_BUSY := by
  simp only [passSendingData] at h
  split_ifs at h <;>
    first
      | (cases h; simp)
      | (split at h <;>
          first
            | cases h
            | (split_ifs at h <;> cases h <;> simp))

theorem passBusy_state (orig : sdmmc_event_t) (s : DispatchState) :
    (passBusy orig s).state = s.state ∨ (passBusy orig s).state = .SDMMC_IDLE := by
  simp only [passBusy]
  split_ifs <;> simp

theorem pass_rank_le (orig : sdmmc_event_t) (hwresp : Resp4)
    (s s1 : DispatchState) (h : sdmmc_process_pass orig hwresp s = some s1) :
    stateRank s.state ≤ stateRank s1.state := by
  cases hst : s.state <;> simp only [sdmmc_process_pass, hst] at h
  case SDMMC_IDLE => cases h; rw [hst]
  case SDMMC_SENDING_CMD => cases h; exact Nat.zero_le _
  case SDMMC_SENDING_DATA =>
    rcases passSendingData_state orig s s1 h with h1 | h1
    · rw [h1, hst]
    · rw [h1]; simp [stateRank]
  case SDMMC_BUSY =>
    cases h
    rcases passBusy_state orig s with h1 | h1
    · rw [h1, hst]
    · rw [h1]; simp [stateRank]

theorem pass_rank_lt (orig : sdmmc_event_t) (hwresp : Resp4)
    (s s1 : DispatchState) (h : sdmmc_process_pass orig hwresp s = some s1)
    (hne : s1.state ≠ s.state) :
    stateRank s.state < stateRank s1.state := by
  have hle := pass_rank_le orig hwresp s s1 h
  have hnr : stateRank s.state ≠ stateRank s1.state :=
    fun hh => hne (stateRank_inj _ _ hh).symm
  omega

theorem fuel_stable (orig : sdmmc_event_t) (hwresp : Resp4) :
    ∀ (n : Nat) (s : DispatchState) (m : Nat), 3 - stateRank s.state < n →
      sdmmc_dispatch_fuel orig hwresp (n + m) s =
        sdmmc_dispatch_fuel orig hwresp n s := by
  intro n
  induction n with
  | zero => intro s m h; exact absurd h (by omega)
  | succ n ih =>
    intro s m h
    have hnm : n + 1 + m = (n + m) + 1 := by omega
    rw [hnm]
    simp only [sdmmc_dispatch_fuel]
    cases hp : sdmmc_process_pass orig hwresp s with
    | none => simp only [hp]
    | some s2 =>
      simp only [hp]
      by_cases he : s2.state = s.state
      · rw [if_pos he, if_pos he]
      · rw [if_neg he, if_neg he]
        apply ih
        have h2 := pass_rank_lt orig hwresp s s2 hp he
        have h3 := stateRank_le_three s2.state
        omega

/-- Claim C10 (confirmed): a dispatch pass never decreases the state rank
in the order SENDING_CMD, SENDING_DATA, BUSY, IDLE; whenever a pass
changes the state it strictly increases the rank; hence the per-event
re-evaluation loop stabilizes within at most four passes (running it with
any budget beyond 4 gives the same result as budget 4, which is how
`sdmmc_process_events` computes the C do-while loop). -/
theorem sdmmc_process_events_loop_terminates :
    (∀ (orig : sdmmc_event_t) (hwresp : Resp4) (s : DispatchState),
      stateRank s.state ≤
        stateRank (((sdmmc_process_pass orig hwresp s).getD s).state)) ∧
    (∀ (orig : sdmmc_event_t) (hwresp : Resp4) (s s1 : DispatchState),
      sdmmc_process_pass orig hwresp s = some s1 → s1.state ≠ s.state →
      stateRank s.state < stateRank s1.state) ∧
    (∀ (orig : sdmmc_event_t) (hwresp : Resp4) (m : Nat) (s : DispatchState),
      sdmmc_dispatch_fuel orig hwresp (4 + m) s =
        sdmmc_dispatch_fuel orig hwresp 4 s) := by
  refine ⟨?_, ?_, ?_⟩
  · intro orig hwresp s
    cases hp : sdmmc_process_pass orig hwresp s with
    | none => simp
    | some s2 => simpa using pass_rank_le orig hwresp s s2 hp
  · exact pass_rank_lt
  · intro orig hwresp m s
    exact fuel_stable orig hwresp 4 s m
      (by have := stateRank_le_three s.state; omega)

/-- Witness for C10: a concrete pass (command-done in SENDING_CMD, no
data) strictly increases the state rank. -/
theorem sdmmc_process_events_loop_terminates_witness :
    stateRank exDispatchDone.state <
      stateRank (((sdmmc_process_pass exEvtCmdDone exRespZero
        exDispatchDone).getD exDispatchDone).state) :=
  sdmmc_process_events_loop_terminates.2.1 exEvtCmdDone exRespZero
    exDispatchDone
    ((sdmmc_process_pass exEvtCmdDone exRespZero exDispatchDone).getD
      exDispatchDone)
    (by rfl) (by decide)

/- ### Claim C8: commands without data never visit SENDING_DATA or BUSY -/

theorem nodata_passSendingCmd (orig : sdmmc_event_t) (hwresp : Resp4)
    (s : DispatchState) (hinv : NoDataInv s)
    (hst : s.state = .SDMMC_SENDING_CMD) :
    NoDataInv (passSendingCmd orig hwresp s) := by
  obtain ⟨hdata, hdisj⟩ := hinv
  have htr : s.trace = [.SDMMC_SENDING_CMD] := by
    rcases hdisj with ⟨h1, h2⟩ | ⟨h1, h2⟩
    · exact h2
    · simp [hst] at h1
  unfold NoDataInv
  simp only [passSendingCmd]
  split_ifs with h1 h2 h3
  · exact ⟨by simp [sdmmc_process_command_response_data_eq, hdata],
      Or.inl ⟨by simp [hst], by simp [htr]⟩⟩
  · exact ⟨hdata, Or.inl ⟨by simp [hst], by simp [htr]⟩⟩
  · exact ⟨by simp [sdmmc_process_command_response_data_eq, hdata],
      Or.inr ⟨by simp, by simp [htr]⟩⟩
  · exact absurd
      (Or.inr (by simp [sdmmc_process_command_response_data_eq, hdata]))
      h3

theorem nodata_pass (orig : sdmmc_event_t) (hwresp : Resp4)
    (s s1 : DispatchState) (hinv : NoDataInv s)
    (h : sdmmc_process_pass orig hwresp s = some s1) : NoDataInv s1 := by
  rcases hd : hinv.2 with ⟨hst, _⟩ | ⟨hst, _⟩
  · simp only [sdmmc_process_pass, hst] at h
    cases h
    exact nodata_passSendingCmd orig hwresp s hinv hst
  · simp only [sdmmc_process_pass, hst] at h
    cases h
    exact hinv

theorem nodata_pass_isSome (orig : sdmmc_event_t) (hwresp : Resp4)
    (s : DispatchState) (hinv : NoDataInv s) :
    ∃ s1, sdmmc_process_pass orig hwresp s = some s1 := by
  rcases hinv.2 with ⟨hst, _⟩ | ⟨hst, _⟩
  · exact ⟨passSendingCmd orig hwresp s, by simp [sdmmc_process_pass, hst]⟩
  · exact ⟨s, by simp [sdmmc_process_pass, hst]⟩

theorem nodata_fuel (orig : sdmmc_event_t) (hwresp : Resp4) :
    ∀ (n : Nat) (s : DispatchState), NoDataInv s →
      ∃ s1, sdmmc_dispatch_fuel orig hwresp n s = some s1 ∧ NoDataInv s1 := by
  intro n
  induction n with
  | zero => intro s hinv; exact ⟨s, rfl, hinv⟩
  | succ n ih =>
    intro s hinv
    obtain ⟨s2, hp⟩ := nodata_pass_isSome orig hwresp s hinv
    have hinv2 := nodata_pass orig hwresp s s2 hinv hp
    simp only [sdmmc_dispatch_fuel, hp]
    by_cases he : s2.state = s.state
    · rw [if_pos he]; exact ⟨s2, rfl, hinv2⟩
    · rw [if_neg he]; exact ih s2 hinv2

theorem nodata_run_loop (hwresp : Resp4) :
    ∀ (events : List sdmmc_event_t) (s : DispatchState), NoDataInv s →
      ((sdmmc_run_loop hwresp s events).traceOf = [.SDMMC_SENDING_CMD] ∨
       (sdmmc_run_loop hwresp s events).traceOf =
         [.SDMMC_SENDING_CMD, .SDMMC_IDLE]) := by
  intro events
  induction events with
  | nil =>
    intro s hinv
    simp only [sdmmc_run_loop]
    split_ifs <;> rcases hinv.2 with ⟨_, htr⟩ | ⟨_, htr⟩ <;>
      simp [RunResult.traceOf, htr]
  | cons e rest ih =>
    intro s hinv
    simp only [sdmmc_run_loop]
    split_ifs with hidle
    · rcases hinv.2 with ⟨_, htr⟩ | ⟨_, htr⟩ <;>
        simp [RunResult.traceOf, htr]
    · have hinv0 : NoDataInv { s with evt := e } := hinv
      obtain ⟨s1, hp, hinv1⟩ := nodata_fuel e hwresp 4 { s with evt := e } hinv0
      simp only [sdmmc_process_events, hp]
      exact ih s1 hinv1

/-- Claim C8 (confirmed): for every command without a data buffer, the
state machine driven by `run` goes from SENDING_CMD directly to IDLE (the
recorded state history is `[SENDING_CMD]` while incomplete, or
`[SENDING_CMD, IDLE]` once complete) and never enters SENDING_DATA or
BUSY at any point. -/
theorem no_data_cmd_never_visits_data_states (cmd : sdmmc_command_t)
    (hwresp : Resp4) (ring0 : DescRing) (ts0 : sdmmc_transfer_state_t)
    (events : List sdmmc_event_t) (hdata : cmd.data = none) :
    ((sdmmc_req_run cmd hwresp ring0 ts0 events).traceOf =
        [.SDMMC_SENDING_CMD] ∨
     (sdmmc_req_run cmd hwresp ring0 ts0 events).traceOf =
        [.SDMMC_SENDING_CMD, .SDMMC_IDLE]) ∧
    .SDMMC_SENDING_DATA ∉ (sdmmc_req_run cmd hwresp ring0 ts0 events).traceOf ∧
    .SDMMC_BUSY ∉ (sdmmc_req_run cmd hwresp ring0 ts0 events).traceOf := by
  obtain ⟨hw, hmk⟩ : ∃ hw, make_hw_cmd cmd = some hw := by
    simp [make_hw_cmd, hdata]
  have hrun : sdmmc_req_run cmd hwresp ring0 ts0 events =
      sdmmc_run_loop hwresp
        { state := .SDMMC_SENDING_CMD,
          evt := { sdmmc_status := 0, dma_status := 0 },
          cmd := { cmd with error := ESP_OK },
          ts := ts0, ring := ring0,
          actions := [HwAction.start_command hw cmd.arg],
          errWrites := 1,
          trace := [.SDMMC_SENDING_CMD] } events := by
    simp only [sdmmc_req_run, hmk, hdata, List.nil_append]
  rw [hrun]
  have hinv : NoDataInv
      { state := .SDMMC_SENDING_CMD,
        evt := { sdmmc_status := 0, dma_status := 0 },
        cmd := { cmd with error := ESP_OK },
        ts := ts0, ring := ring0,
        actions := [HwAction.start_command hw cmd.arg],
        errWrites := 1,
        trace := [.SDMMC_SENDING_CMD] } :=
    ⟨by simp [hdata], Or.inl ⟨rfl, rfl⟩⟩
  have hdisj := nodata_run_loop hwresp events _ hinv
  refine ⟨hdisj, ?_, ?_⟩ <;> rcases hdisj with h | h <;> simp [h]

/-- Witness for C8: a concrete no-data command run through a
response-timeout event and then a command-done event. -/
theorem no_data_cmd_never_visits_data_states_witness :
    ((sdmmc_req_run exCmdNoData exRespZero exRing exTs
        [exEvtErrDone, exEvtCmdDone]).traceOf = [.SDMMC_SENDING_CMD] ∨
     (sdmmc_req_run exCmdNoData exRespZero exRing exTs
        [exEvtErrDone, exEvtCmdDone]).traceOf =
        [.SDMMC_SENDING_CMD, .SDMMC_IDLE]) ∧
    .SDMMC_SENDING_DATA ∉ (sdmmc_req_run exCmdNoData exRespZero exRing exTs
        [exEvtErrDone, exEvtCmdDone]).traceOf ∧
    .SDMMC_BUSY ∉ (sdmmc_req_run exCmdNoData exRespZero exRing exTs
        [exEvtErrDone, exEvtCmdDone]).traceOf :=
  no_data_cmd_never_visits_data_states exCmdNoData exRespZero exRing exTs
    [exEvtErrDone, exEvtCmdDone] (by decide)

/- ### Claim C6: the ring-fill operation -/

theorem fill_zero_rem (n : Nat) (ring : DescRing)
    (ts : sdmmc_transfer_state_t) (h : ts.size_remaining = 0) :
    sdmmc_fill_dma_descriptors n ring ts = some (ring, ts) := by
  cases n with
  | zero => rfl
  | succ n => simp [sdmmc_fill_dma_descriptors, h]

theorem decide_le_iff_aux (a b c d : Nat) (h1 : a ≤ b → c ≤ d)
    (h2 : c ≤ d → a ≤ b) : decide (a ≤ b) = decide (c ≤ d) := by
  rw [decide_eq_decide]
  exact ⟨h1, h2⟩

/-- One fill step that does not exhaust the remaining length. -/
theorem fill_step_big (n : Nat) (ring : DescRing)
    (ts : sdmmc_transfer_state_t) (hgt : 4096 < ts.size_remaining)
    (hc0 : (ring ts.next_desc).owned_by_idmac = false) :
    sdmmc_fill_dma_descriptors (n + 1) ring ts =
      sdmmc_fill_dma_descriptors n
        (ringSet ring ts.next_desc
          { ring ts.next_desc with
            last_descriptor := false,
            second_address_chained := true,
            owned_by_idmac := true,
            buffer1_ptr := ts.ptr,
            next_desc_ptr := some (ts.next_desc + 1),
            buffer1_size := 4096 })
        { ts with size_remaining := ts.size_remaining - 4096,
                  ptr := ts.ptr + 4096,
                  next_desc := ts.next_desc + 1 } := by
  simp only [sdmmc_fill_dma_descriptors, SDMMC_DMA_MAX_BUF_LEN]
  rw [if_neg (by omega : ¬ ts.size_remaining = 0),
      if_neg (by simp [hc0] : ¬ (ring ts.next_desc).owned_by_idmac = true)]
  have hstf : (if ts.size_remaining < 4096 then ts.size_remaining else 4096) =
      4096 := by
    split <;> omega
  rw [hstf]
  have hlast : decide ((4096 : Nat) = ts.size_remaining) = false := by
    simp only [decide_eq_false_iff_not]
    omega
  rw [hlast]
  simp

/-- One fill step that exhausts the remaining length. -/
theorem fill_step_last (n : Nat) (ring : DescRing)
    (ts : sdmmc_transfer_state_t) (hL : 0 < ts.size_remaining)
    (hle : ts.size_remaining ≤ 4096)
    (hc0 : (ring ts.next_desc).owned_by_idmac = false) :
    sdmmc_fill_dma_descriptors (n + 1) ring ts =
      some (ringSet ring ts.next_desc
          { ring ts.next_desc with
            last_descriptor := true,
            second_address_chained := true,
            owned_by_idmac := true,
            buffer1_ptr := ts.ptr,
            next_desc_ptr := none,
            buffer1_size := ts.size_remaining },
        { ts with size_remaining := 0,
                  ptr := ts.ptr + ts.size_remaining,
                  next_desc := ts.next_desc + 1 }) := by
  simp only [sdmmc_fill_dma_descriptors, SDMMC_DMA_MAX_BUF_LEN]
  rw [if_neg (by omega : ¬ ts.size_remaining = 0),
      if_neg (by simp [hc0] : ¬ (ring ts.next_desc).owned_by_idmac = true)]
  have hstf : (if ts.size_remaining < 4096 then ts.size_remaining else 4096) =
      ts.size_remaining := by
    split <;> omega
  rw [hstf]
  have hdec : decide (ts.size_remaining = ts.size_remaining) = true := by simp
  rw [hdec]
  rw [fill_zero_rem n _ _ (by simp)]
  simp

theorem fill_spec_aux (n : Nat) (ring : DescRing)
    (ts : sdmmc_transfer_state_t)
    (hL : 0 < ts.size_remaining)
    (hk4 : min n ((ts.size_remaining + 4096 - 1) / 4096) ≤ 4)
    (hown : ∀ j, j < min n ((ts.size_remaining + 4096 - 1) / 4096) →
      (ring (ringIdx ts.next_desc j)).owned_by_idmac = false) :
    ∃ ring1 ts1,
      sdmmc_fill_dma_descriptors n ring ts = some (ring1, ts1) ∧
      (ts1.size_remaining =
        ts.size_remaining - min n ((ts.size_remaining + 4096 - 1) / 4096) * 4096 ∧
       ts1.ptr = ts.ptr +
        min ts.size_remaining
          (min n ((ts.size_remaining + 4096 - 1) / 4096) * 4096) ∧
       ts1.next_desc.val =
        (ts.next_desc.val + min n ((ts.size_remaining + 4096 - 1) / 4096)) % 4 ∧
       ts1.desc_remaining = ts.desc_remaining ∧
       (∀ j, j < min n ((ts.size_remaining + 4096 - 1) / 4096) →
         (ring1 (ringIdx ts.next_desc j)).owned_by_idmac = true ∧
         (ring1 (ringIdx ts.next_desc j)).second_address_chained = true ∧
         (ring1 (ringIdx ts.next_desc j)).buffer1_size =
           min (ts.size_remaining - j * 4096) 4096 ∧
         (ring1 (ringIdx ts.next_desc j)).buffer1_ptr = ts.ptr + j * 4096 ∧
         (ring1 (ringIdx ts.next_desc j)).last_descriptor =
           decide (ts.size_remaining ≤ (j + 1) * 4096) ∧
         (ring1 (ringIdx ts.next_desc j)).next_desc_ptr =
           (if ts.size_remaining ≤ (j + 1) * 4096 then none
            else some (ringIdx ts.next_desc (j + 1)))) ∧
       (∀ i : Fin 4,
         (∀ j, j < min n ((ts.size_remaining + 4096 - 1) / 4096) →
           i ≠ ringIdx ts.next_desc j) →
         ring1 i = ring i)) := by
  induction n generalizing ring ts with
  | zero =>
    refine ⟨ring, ts, rfl, by simp, by simp, ?_, rfl, ?_, ?_⟩
    · simp [Nat.mod_eq_of_lt ts.next_desc.isLt]
    · intro j hj; omega
    · intro i hi; rfl
  | succ n ih =>
    have hpos : 0 < min (n + 1) ((ts.size_remaining + 4096 - 1) / 4096) := by
      omega
    have hc0 : (ring ts.next_desc).owned_by_idmac = false := by
      have h := hown 0 hpos
      rwa [ringIdx_zero] at h
    by_cases hle : ts.size_remaining ≤ 4096
    · rw [fill_step_last n ring ts hL hle hc0]
      refine ⟨_, _, rfl, by dsimp only; omega, by dsimp only; omega, ?_, rfl,
        ?_, ?_⟩
      · dsimp only
        rw [val_add_one]
        omega
      · intro j hj
        have hj0 : j = 0 := by omega
        subst hj0
        rw [ringIdx_zero, ringSet_self]
        refine ⟨rfl, rfl, by dsimp only; omega, by dsimp only; omega, ?_, ?_⟩
        · exact (decide_eq_true (by omega : ts.size_remaining ≤ (0 + 1) * 4096)).symm
        · rw [if_pos (by omega : ts.size_remaining ≤ (0 + 1) * 4096)]
      · intro i hi
        have hne : i ≠ ts.next_desc := by
          have h := hi 0 (by omega)
          rwa [ringIdx_zero] at h
        exact ringSet_other _ _ _ _ hne
    · push_neg at hle
      rw [fill_step_big n ring ts hle hc0]
      obtain ⟨ring2, ts2, heq, hs1, hs2, hs3, hs4, hs5, hs6⟩ :=
        ih (ringSet ring ts.next_desc
              { ring ts.next_desc with
                last_descriptor := false,
                second_address_chained := true,
                owned_by_idmac := true,
                buffer1_ptr := ts.ptr,
                next_desc_ptr := some (ts.next_desc + 1),
                buffer1_size := 4096 })
           { ts with size_remaining := ts.size_remaining - 4096,
                     ptr := ts.ptr + 4096,
                     next_desc := ts.next_desc + 1 }
           (by dsimp only; omega)
           (by dsimp only; omega)
           (by intro j hj
               dsimp only at hj ⊢
               rw [ringIdx_succ,
                   ringSet_other _ _ _ _
                     (ringIdx_ne ts.next_desc (j + 1) (by omega) (by omega))]
               exact hown (j + 1) (by omega))
      dsimp only at hs1 hs2 hs3 hs4 hs5 hs6
      rw [val_add_one] at hs3
      refine ⟨ring2, ts2, heq, by omega, by omega, by omega, hs4, ?_, ?_⟩
      · intro j hj
        cases j with
        | zero =>
          rw [ringIdx_zero]
          have huntouched : ring2 ts.next_desc =
              ringSet ring ts.next_desc
                { ring ts.next_desc with
                  last_descriptor := false,
                  second_address_chained := true,
                  owned_by_idmac := true,
                  buffer1_ptr := ts.ptr,
                  next_desc_ptr := some (ts.next_desc + 1),
                  buffer1_size := 4096 } ts.next_desc := by
            apply hs6
            intro j' hj'
            rw [ringIdx_succ]
            exact Ne.symm (ringIdx_ne ts.next_desc (j' + 1) (by omega) (by omega))
          rw [huntouched, ringSet_self]
          refine ⟨rfl, rfl, by dsimp only; omega, by dsimp only; omega, ?_, ?_⟩
          · exact (decide_eq_false
              (by omega : ¬ ts.size_remaining ≤ (0 + 1) * 4096)).symm
          · rw [if_neg (by omega : ¬ ts.size_remaining ≤ (0 + 1) * 4096),
                ringIdx_one]
        | succ j' =>
          have hj'lt : j' < min n ((ts.size_remaining - 4096 + 4096 - 1) / 4096) := by
            omega
          have h5 := hs5 j' hj'lt
          rw [ringIdx_succ] at h5
          obtain ⟨ha, hb, hc, hd, he, hf⟩ := h5
          refine ⟨ha, hb, ?_, ?_, ?_, ?_⟩
          · rw [hc]; omega
          · rw [hd]; omega
          · rw [he]
            exact decide_le_iff_aux _ _ _ _ (by omega) (by omega)
          · rw [hf]
            by_cases hcond : ts.size_remaining ≤ (j' + 1 + 1) * 4096
            · rw [if_pos (by omega : ts.size_remaining - 4096 ≤ (j' + 1) * 4096),
                  if_pos hcond]
            · rw [if_neg (by omega : ¬ ts.size_remaining - 4096 ≤ (j' + 1) * 4096),
                  if_neg hcond, ringIdx_succ]
      · intro i hi
        have h1 : ring2 i =
            ringSet ring ts.next_desc
              { ring ts.next_desc with
                last_descriptor := false,
                second_address_chained := true,
                owned_by_idmac := true,
                buffer1_ptr := ts.ptr,
                next_desc_ptr := some (ts.next_desc + 1),
                buffer1_size := 4096 } i := by
          apply hs6
          intro j' hj'
          rw [ringIdx_succ]
          exact hi (j' + 1) (by omega)
        have h2 : i ≠ ts.next_desc := by
          have h := hi 0 (by omega)
          rwa [ringIdx_zero] at h
        rw [h1, ringSet_other _ _ _ _ h2]

/-- Claim C6 (confirmed): every call of the ring-fill operation with
positive remaining length `L` and budget `n` — under the §4.1 contract
that the slots about to be filled are CPU-owned, and within the ring
capacity of 4 — fills exactly `min n (descNeeded L)` slots from the
cursor as described by `FillSpec`: per-slot sizes capped at the maximum
per-descriptor length, last-marking and chain termination on the slot
that exhausts `L`, chaining to `(index+1) % 4` otherwise, DMA ownership
set on each filled slot, cursor advanced modulo 4 once per slot and
remaining length decreased by the filled bytes. -/
theorem fill_dma_descriptors_spec (n : Nat) (ring : DescRing)
    (ts : sdmmc_transfer_state_t)
    (hL : 0 < ts.size_remaining)
    (hk4 : min n (descNeeded ts.size_remaining) ≤ 4)
    (hown : ∀ j, j < min n (descNeeded ts.size_remaining) →
      (ring (ringIdx ts.next_desc j)).owned_by_idmac = false) :
    ∃ ring1 ts1,
      sdmmc_fill_dma_descriptors n ring ts = some (ring1, ts1) ∧
      FillSpec n ring ts ring1 ts1 := by
  have hk4a : min n ((ts.size_remaining + 4096 - 1) / 4096) ≤ 4 := by
    simpa only [descNeeded, SDMMC_DMA_MAX_BUF_LEN] using hk4
  have howna : ∀ j, j < min n ((ts.size_remaining + 4096 - 1) / 4096) →
      (ring (ringIdx ts.next_desc j)).owned_by_idmac = false := by
    simpa only [descNeeded, SDMMC_DMA_MAX_BUF_LEN] using hown
  obtain ⟨ring1, ts1, heq, hspec⟩ := fill_spec_aux n ring ts hL hk4a howna
  refine ⟨ring1, ts1, heq, ?_⟩
  simpa only [FillSpec, descNeeded, SDMMC_DMA_MAX_BUF_LEN] using hspec

/-- Witness for C6: budget 4, 5000 bytes remaining, cursor at slot 2 of
an all-CPU-owned ring (two slots get filled: 4096 then 904 bytes). -/
theorem fill_dma_descriptors_spec_witness :
    ∃ ring1 ts1,
      sdmmc_fill_dma_descriptors 4 exRing exTsFill = some (ring1, ts1) ∧
      FillSpec 4 exRing exTsFill ring1 ts1 :=
  fill_dma_descriptors_spec 4 exRing exTsFill (by decide) (by decide)
    (by decide)
